import Mathlib

/-!
Shallow embedding of the `cwlogs-rqid-filter` program (Python): the event
retriever `fetch_events` and the two-pass correlation filter `filter_events`
from `cwlogs_rqid_filter/__init__.py`, together with the request-id regex
`REQUEST_ID_REGEX` and the primitive string operations they use.

Python dictionaries are modelled as structures; a dictionary key that may be
absent becomes an `Option` field.  The remote CloudWatch service is modelled
by the list of responses (pages) it would serve, consumed in order.
-/

namespace Cw

/-! ### Python `str.strip()` -/

/-- The set of characters stripped by Python `str.strip()` with no argument:
Unicode whitespace (ASCII space, `\t`..`\r`, the C1 separators 0x1C-0x1F,
NEL, NBSP, and the Unicode space separators). -/
def pySpace (c : Char) : Bool :=
  c.toNat == 0x20 || (0x9 ≤ c.toNat && c.toNat ≤ 0xD) ||
  (0x1C ≤ c.toNat && c.toNat ≤ 0x1F) || c.toNat == 0x85 || c.toNat == 0xA0 ||
  c.toNat == 0x1680 || (0x2000 ≤ c.toNat && c.toNat ≤ 0x200A) ||
  c.toNat == 0x2028 || c.toNat == 0x2029 || c.toNat == 0x202F ||
  c.toNat == 0x205F || c.toNat == 0x3000

/-- `str.strip()` on the character list: drop whitespace from the front,
then from the back (by reversing, dropping, reversing back). -/
def stripChars (cs : List Char) : List Char :=
  ((cs.dropWhile pySpace).reverse.dropWhile pySpace).reverse

/-- Python `message.strip()`. -/
def pyStrip (s : String) : String :=
  String.mk (stripChars s.data)

/-! ### `REQUEST_ID_REGEX`

The source compiles `(([a-f]|\d){8}-([a-f]|\d){4}-([a-f]|\d){4}-([a-f]|\d){4}-([a-f]|\d){12})`
without flags on a Python 3 `str`, so `\d` is any Unicode decimal digit
(category Nd), not only `[0-9]`. -/

/-- The Unicode decimal-digit (category Nd) code-point ranges, inclusive:
the character set matched by Python `re`'s `\d` on a `str` pattern. -/
def ndRanges : List (Nat × Nat) :=
  [(0x30, 0x39), (0x660, 0x669), (0x6F0, 0x6F9), (0x7C0, 0x7C9),
   (0x966, 0x96F), (0x9E6, 0x9EF), (0xA66, 0xA6F), (0xAE6, 0xAEF),
   (0xB66, 0xB6F), (0xBE6, 0xBEF), (0xC66, 0xC6F), (0xCE6, 0xCEF),
   (0xD66, 0xD6F), (0xDE6, 0xDEF), (0xE50, 0xE59), (0xED0, 0xED9),
   (0xF20, 0xF29), (0x1040, 0x1049), (0x1090, 0x1099), (0x17E0, 0x17E9),
   (0x1810, 0x1819), (0x1946, 0x194F), (0x19D0, 0x19D9), (0x1A80, 0x1A89),
   (0x1A90, 0x1A99), (0x1B50, 0x1B59), (0x1BB0, 0x1BB9), (0x1C40, 0x1C49),
   (0x1C50, 0x1C59), (0xA620, 0xA629), (0xA8D0, 0xA8D9), (0xA900, 0xA909),
   (0xA9D0, 0xA9D9), (0xA9F0, 0xA9F9), (0xAA50, 0xAA59), (0xABF0, 0xABF9),
   (0xFF10, 0xFF19), (0x104A0, 0x104A9), (0x10D30, 0x10D39),
   (0x11066, 0x1106F), (0x110F0, 0x110F9), (0x11136, 0x1113F),
   (0x111D0, 0x111D9), (0x112F0, 0x112F9), (0x11450, 0x11459),
   (0x114D0, 0x114D9), (0x11650, 0x11659), (0x116C0, 0x116C9),
   (0x11730, 0x11739), (0x118E0, 0x118E9), (0x11950, 0x11959),
   (0x11C50, 0x11C59), (0x11D50, 0x11D59), (0x11DA0, 0x11DA9),
   (0x16A60, 0x16A69), (0x16B50, 0x16B59), (0x1D7CE, 0x1D7FF),
   (0x1E140, 0x1E149), (0x1E2F0, 0x1E2F9), (0x1E950, 0x1E959),
   (0x1FBF0, 0x1FBF9)]

/-- Python `\d` (Unicode decimal digit). -/
def isPyDigit (c : Char) : Bool :=
  ndRanges.any (fun r => r.1 ≤ c.toNat && c.toNat ≤ r.2)

/-- One character of the request-id pattern: `[a-f]|\d`. -/
def isIdChar (c : Char) : Bool :=
  (0x61 ≤ c.toNat && c.toNat ≤ 0x66) || isPyDigit c

/-- Does `cs` consist of exactly the 36-character request-id shape
`{8}-{4}-{4}-{4}-{12}` with every non-dash character an `isIdChar`?
The regex body is fixed-width, so a match at a position is exactly this
test on the 36 characters starting there. -/
def reqIdShape (cs : List Char) : Bool :=
  cs.length == 36 &&
  (cs.take 8).all isIdChar &&
  ((cs.drop 8).take 1 == ['-']) &&
  ((cs.drop 9).take 4).all isIdChar &&
  ((cs.drop 13).take 1 == ['-']) &&
  ((cs.drop 14).take 4).all isIdChar &&
  ((cs.drop 18).take 1 == ['-']) &&
  ((cs.drop 19).take 4).all isIdChar &&
  ((cs.drop 23).take 1 == ['-']) &&
  ((cs.drop 24).take 12).all isIdChar

/-- Leftmost-match search for the request-id pattern: try each start
position left to right, returning the 36-character match found first.
This is `REQUEST_ID_REGEX.search(s)` for a fixed-width pattern. -/
def searchReqId : List Char → Option (List Char)
  | [] => none
  | c :: rest =>
    if reqIdShape ((c :: rest).take 36) then some ((c :: rest).take 36)
    else searchReqId rest

/-- `REQUEST_ID_REGEX.search(s)` followed by `.group(0)`, as a `String`
operation; `none` when the regex does not match. -/
def extractRequestId (s : String) : Option String :=
  (searchReqId s.data).map String.mk

/-! ### Data model -/

/-- A CloudWatch log event dictionary as the program reads and writes it:
`timestamp` and `message` always present, `request_id` a key written by
`filter_events` (absent = `none`). Other keys of the real response
(`ingestionTime`, `eventId`, ...) are never read or written by the program
and are omitted. -/
structure Event where
  timestamp : Int
  message : String
  request_id : Option String
deriving DecidableEq, Repr

/-- The `request_parameters` dictionary handed to `fetch_events`, with the
keys the program documents plus the `nextToken` key it writes itself
(absent = `none`). -/
structure QueryParameters where
  logGroupName : String
  logStreamNames : Option (List String)
  logStreamNamePrefix : Option String
  startTime : Option Int
  endTime : Option Int
  limit : Option Nat
  nextToken : Option String
deriving DecidableEq, Repr

/-- One response of `client.filter_log_events`: a page of events, an
optional continuation token, and the searched-log-streams report
(stream name, searchedCompletely) read only on the final page. -/
structure Response where
  events : List Event
  nextToken : Option String
  searchedLogStreams : List (String × Bool)
deriving DecidableEq, Repr

/-! ### `fetch_events` -/

/-- The comparison used by `sorted(events, key=lambda x: x["timestamp"])`. -/
def eventLe (a b : Event) : Bool :=
  a.timestamp ≤ b.timestamp

/-- The `while True` loop of `fetch_events`: consume the remote responses in
order, accumulating `events += response_events`; before every call after the
first, write the previous continuation token into the parameters
(`request_parameters["nextToken"] = next_token`); stop at the first response
without a token.  Returns the final state of the (mutated) parameter
dictionary together with the accumulated events.  An empty response list
cannot arise from the remote service and returns the accumulator as is. -/
def fetchLoop : QueryParameters → List Response → List Event →
    QueryParameters × List Event
  | p, [], acc => (p, acc)
  | p, r :: rest, acc =>
    match r.nextToken with
    | none => (p, acc ++ r.events)
    | some t => fetchLoop { p with nextToken := some t } rest (acc ++ r.events)

/-- `fetch_events(request_parameters)` against a remote source that would
serve the given pages: run the pagination loop, then
`sorted(events, key=lambda x: x["timestamp"])`.  The first component is the
caller's parameter dictionary as the call leaves it. -/
def fetch_events (p : QueryParameters) (pages : List Response) :
    QueryParameters × List Event :=
  let res := fetchLoop p pages []
  (res.1, res.2.mergeSort eventLe)

/-- A well-formed page sequence as the remote source produces it: at least
one page, every page before the last carries a continuation token, and the
last does not. -/
def wellFormedPages : List Response → Bool
  | [] => false
  | [r] => r.nextToken.isNone
  | r :: s :: rest => r.nextToken.isSome && wellFormedPages (s :: rest)

/-! ### `filter_events` -/

/-- The outcome of `re.compile(filter_regex_pattern)` on the caller's
content pattern: the host regex engine is opaque here, so a compiled pattern
is represented by what the program observes of it — the truthiness of
`filter_regex.search(message)` — and a malformed pattern by the `re.error`
it raises. -/
inductive CompiledPattern where
  | ok (search : String → Bool)
  | err (msg : String)

/-- The per-event mutation of pass 1: strip the message in place
(`event["message"] = message`), and when the request-id regex matches, write
the first match into `event["request_id"]`; on no match the loop continues
and an already-present `request_id` key is left as it was. -/
def annotate (e : Event) : Event :=
  let message := pyStrip e.message
  match extractRequestId message with
  | some rid => { e with message := message, request_id := some rid }
  | none => { e with message := message }

/-- The `matching_request_ids` set built by pass 1: ids of events whose
stripped message both contains a request id and satisfies
`filter_regex.search`; events without a request id are skipped (`continue`)
before the pattern is ever tested.  Membership is all that is used of the
Python set, so a list suffices. -/
def matching_request_ids (events : List Event) (search : String → Bool) :
    List String :=
  events.filterMap (fun e =>
    let message := pyStrip e.message
    match extractRequestId message with
    | none => none
    | some rid => if search message then some rid else none)

/-- Pass 2 test: `"request_id" in event and event["request_id"] in
matching_request_ids`, on the events as pass 1 left them. -/
def keepEvent (mids : List String) (e : Event) : Bool :=
  match e.request_id with
  | some rid => mids.contains rid
  | none => false

/-- Both passes of `filter_events` after the pattern compiled: pass 1
mutates every event (`annotate`) and collects `matching_request_ids`;
pass 2 walks the same mutated list and keeps the events whose attached id
is in the set. -/
def filter_events_core (events : List Event) (search : String → Bool) :
    List Event :=
  (events.map annotate).filter (keepEvent (matching_request_ids events search))

/-- `filter_events(events, filter_regex_pattern)`: `re.compile` first — a
malformed pattern raises there, before the first event is touched.  The
first component is the state of the caller's event list when the call ends
(Python mutates the event dictionaries in place), the second the returned
filtered list or the compilation error. -/
def filter_events (events : List Event) (c : CompiledPattern) :
    List Event × Except String (List Event) :=
  match c with
  | .err msg => (events, Except.error msg)
  | .ok search =>
    (events.map annotate, Except.ok (filter_events_core events search))

/-! ### Lemmas about stripping -/

theorem dropWhile_dropWhile (p : Char → Bool) (l : List Char) :
    (l.dropWhile p).dropWhile p = l.dropWhile p := by
  induction l with
  | nil => rfl
  | cons a t ih =>
    cases h : p a with
    | true => simp [List.dropWhile_cons, h, ih]
    | false => simp [List.dropWhile_cons, h]

theorem dropWhile_reverse_dropWhile (p : Char → Bool) (l : List Char)
    (h : l.dropWhile p = l) :
    ((l.reverse.dropWhile p).reverse).dropWhile p = (l.reverse.dropWhile p).reverse := by
  have hl : l = (l.reverse.dropWhile p).reverse ++ (l.reverse.takeWhile p).reverse := by
    conv_lhs => rw [← List.reverse_reverse l,
      ← List.takeWhile_append_dropWhile p l.reverse]
    rw [List.reverse_append]
  cases hB : (l.reverse.dropWhile p).reverse with
  | nil => rfl
  | cons c t =>
    have hc : p c = false := by
      rw [hB] at hl
      cases hpc : p c with
      | false => rfl
      | true =>
        exfalso
        rw [hl, List.cons_append, List.dropWhile_cons, hpc, if_pos rfl] at h
        have hlen := congrArg List.length h
        have hle := (List.dropWhile_sublist (l := t ++ (l.reverse.takeWhile p).reverse)
          p).length_le
        simp only [List.length_cons, List.length_append] at hlen hle
        omega
    simp [List.dropWhile_cons, hc]

theorem stripChars_stripChars (l : List Char) :
    stripChars (stripChars l) = stripChars l := by
  have h1 : (stripChars l).dropWhile pySpace = stripChars l :=
    dropWhile_reverse_dropWhile pySpace (l.dropWhile pySpace)
      (dropWhile_dropWhile pySpace l)
  rw [stripChars, h1, stripChars, List.reverse_reverse,
    dropWhile_dropWhile pySpace]

theorem pyStrip_pyStrip (s : String) : pyStrip (pyStrip s) = pyStrip s := by
  rw [pyStrip, pyStrip, stripChars_stripChars]

/-! ### Lemmas about `annotate` -/

theorem annotate_timestamp (e : Event) : (annotate e).timestamp = e.timestamp := by
  cases h : extractRequestId (pyStrip e.message) <;> simp [annotate, h]

theorem annotate_message (e : Event) : (annotate e).message = pyStrip e.message := by
  cases h : extractRequestId (pyStrip e.message) <;> simp [annotate, h]

theorem annotate_annotate (e : Event) : annotate (annotate e) = annotate e := by
  cases h : extractRequestId (pyStrip e.message) <;>
    simp [annotate, h, pyStrip_pyStrip]

theorem annotate_request_id (e : Event) (rid : String)
    (h : extractRequestId (pyStrip e.message) = some rid) :
    (annotate e).request_id = some rid := by
  simp [annotate, h]

/-! ### Lemmas about `fetchLoop` -/

theorem fetchLoop_cons (p : QueryParameters) (r : Response) (rest : List Response)
    (acc : List Event) :
    fetchLoop p (r :: rest) acc =
      match r.nextToken with
      | none => (p, acc ++ r.events)
      | some t => fetchLoop { p with nextToken := some t } rest (acc ++ r.events) :=
  rfl

theorem fetchLoop_events (pages : List Response) :
    wellFormedPages pages = true → ∀ (p : QueryParameters) (acc : List Event),
    (fetchLoop p pages acc).2 = acc ++ pages.flatMap (fun r => r.events) := by
  induction pages with
  | nil => intro h; simp [wellFormedPages] at h
  | cons r rest ih =>
    intro hwf p acc
    cases rest with
    | nil =>
      have hnone : r.nextToken = none := by
        simpa [wellFormedPages, Option.isNone_iff_eq_none] using hwf
      simp [fetchLoop, hnone]
    | cons s rest2 =>
      have hwf2 : r.nextToken.isSome = true ∧ wellFormedPages (s :: rest2) = true := by
        simpa [wellFormedPages] using hwf
      obtain ⟨t, ht⟩ := Option.isSome_iff_exists.mp hwf2.1
      rw [fetchLoop_cons, ht]
      show (fetchLoop { p with nextToken := some t } (s :: rest2) (acc ++ r.events)).2 = _
      rw [ih hwf2.2]
      simp [List.append_assoc]

theorem fetchLoop_params (pages : List Response) :
    ∀ (p : QueryParameters) (acc : List Event),
    (fetchLoop p pages acc).1 = p ∨
      ∃ t, (fetchLoop p pages acc).1 = { p with nextToken := some t } := by
  induction pages with
  | nil => intro p acc; exact Or.inl rfl
  | cons r rest ih =>
    intro p acc
    cases ht : r.nextToken with
    | none => left; rw [fetchLoop_cons, ht]
    | some t =>
      rcases ih { p with nextToken := some t } (acc ++ r.events) with h | ⟨u, hu⟩
      · right
        refine ⟨t, ?_⟩
        rw [fetchLoop_cons, ht]
        exact h
      · right
        refine ⟨u, ?_⟩
        rw [fetchLoop_cons, ht]
        exact hu

theorem fetch_events_snd (q : QueryParameters) (pages : List Response)
    (h : wellFormedPages pages = true) :
    (fetch_events q pages).2 =
      (pages.flatMap (fun r => r.events)).mergeSort eventLe := by
  show ((fetchLoop q pages []).2).mergeSort eventLe = _
  rw [fetchLoop_events pages h q []]
  simp

theorem eventLe_trans (a b c : Event) (hab : eventLe a b = true)
    (hbc : eventLe b c = true) : eventLe a c = true := by
  simp [eventLe] at *
  omega

theorem eventLe_total (a b : Event) : (eventLe a b || eventLe b a) = true := by
  simp [eventLe]
  omega

/-! ### Lemmas about the filter passes -/

theorem mem_matching_iff (events : List Event) (search : String → Bool)
    (rid : String) :
    rid ∈ matching_request_ids events search ↔
      ∃ e ∈ events, extractRequestId (pyStrip e.message) = some rid ∧
        search (pyStrip e.message) = true := by
  rw [matching_request_ids, List.mem_filterMap]
  constructor
  · rintro ⟨e, he, hf⟩
    refine ⟨e, he, ?_⟩
    simp only [] at hf
    split at hf
    · exact absurd hf (by simp)
    · next r2 hx =>
      split at hf
      · next hs =>
        obtain rfl : r2 = rid := by simpa using hf
        exact ⟨hx, hs⟩
      · exact absurd hf (by simp)
  · rintro ⟨e, he, hx, hs⟩
    refine ⟨e, he, ?_⟩
    simp [hx, hs]

theorem mem_filter_events_core (events : List Event) (search : String → Bool)
    (x : Event) :
    x ∈ filter_events_core events search ↔
      x ∈ events.map annotate ∧
        keepEvent (matching_request_ids events search) x = true := by
  rw [filter_events_core]
  exact List.mem_filter

theorem keepEvent_annotate (mids : List String) (e : Event) (rid : String)
    (hx : extractRequestId (pyStrip e.message) = some rid) :
    keepEvent mids (annotate e) = (mids.contains rid) := by
  rw [keepEvent, annotate_request_id e rid hx]

/-! ### Concrete inputs used by witnesses and counterexamples -/

/-- First event of the worked example: shares its request id with
`sampleBoom`, does not itself match the content pattern. -/
def sampleStart : Event :=
  ⟨1, "id=aaaaaaaa-0000-0000-0000-000000000000 start", none⟩

/-- Second event of the worked example: same request id, matches. -/
def sampleBoom : Event :=
  ⟨2, "id=aaaaaaaa-0000-0000-0000-000000000000 ERROR boom", none⟩

/-- Third event of the worked example: a different request id, no match. -/
def sampleOther : Event :=
  ⟨3, "id=bbbbbbbb-1111-1111-1111-111111111111 start", none⟩

/-- A concrete compiled content pattern: does the message contain an
uppercase E (as the pattern `E` would)? -/
def sampleSearch : String → Bool := fun m => m.data.contains 'E'

/-- The request id shared by `sampleStart` and `sampleBoom`. -/
def sampleRid : String := "aaaaaaaa-0000-0000-0000-000000000000"

/-! ### Claim theorems -/

/-- Claim C1: correlation closure — two input events whose messages carry
the same first-occurring request id are retained or dropped together by
`filter_events`, and retention is exactly membership of that id in the
pass-1 `matching_request_ids` set. -/
theorem correlation_closure (events : List Event) (search : String → Bool)
    (e1 e2 : Event) (rid : String) (h1 : e1 ∈ events) (h2 : e2 ∈ events)
    (hx1 : extractRequestId (pyStrip e1.message) = some rid)
    (hx2 : extractRequestId (pyStrip e2.message) = some rid) :
    (annotate e1 ∈ filter_events_core events search ↔
      annotate e2 ∈ filter_events_core events search) ∧
    (annotate e1 ∈ filter_events_core events search ↔
      rid ∈ matching_request_ids events search) := by
  have key : ∀ e : Event, e ∈ events →
      extractRequestId (pyStrip e.message) = some rid →
      (annotate e ∈ filter_events_core events search ↔
        rid ∈ matching_request_ids events search) := by
    intro e he hx
    rw [mem_filter_events_core, keepEvent_annotate _ e rid hx]
    have hmem : annotate e ∈ events.map annotate := List.mem_map_of_mem annotate he
    simp [hmem, List.contains, List.elem_iff]
  exact ⟨(key e1 h1 hx1).trans (key e2 h2 hx2).symm, key e1 h1 hx1⟩

/-- Claim C1, witness: the worked example, instantiated. -/
theorem correlation_closure_witness :
    ((annotate sampleStart ∈
        filter_events_core [sampleStart, sampleBoom, sampleOther] sampleSearch ↔
      annotate sampleBoom ∈
        filter_events_core [sampleStart, sampleBoom, sampleOther] sampleSearch) ∧
     (annotate sampleStart ∈
        filter_events_core [sampleStart, sampleBoom, sampleOther] sampleSearch ↔
      sampleRid ∈
        matching_request_ids [sampleStart, sampleBoom, sampleOther] sampleSearch)) :=
  correlation_closure _ _ sampleStart sampleBoom sampleRid (by decide) (by decide)
    (by decide) (by decide)

/-- Claim C2 (amended): an event that arrives without a `request_id` key
and whose stripped message contains no request-id occurrence is never in
the filter output, and the filter nevertheless returns normally. -/
theorem uncorrelatable_excluded (events : List Event) (search : String → Bool)
    (e : Event) (hrq : e.request_id = none)
    (hx : extractRequestId (pyStrip e.message) = none) :
    (filter_events events (CompiledPattern.ok search)).2 =
      Except.ok (filter_events_core events search) ∧
    annotate e ∉ filter_events_core events search := by
  refine ⟨rfl, ?_⟩
  rw [mem_filter_events_core]
  rintro ⟨-, hkeep⟩
  have hnone : (annotate e).request_id = none := by simp [annotate, hx, hrq]
  rw [keepEvent, hnone] at hkeep
  simp at hkeep

/-- An event whose message matches the content pattern and carries a
request id; its id ends up in the matching set. -/
def staleMatch : Event :=
  ⟨0, "aaaaaaaa-aaaa-aaaa-aaaa-aaaaaaaaaaaa ERROR", none⟩

/-- An event whose message contains no request-id occurrence but which
arrives with a `request_id` key already set (to the id of `staleMatch`):
pass 1 leaves the stale key in place and pass 2 reads it. -/
def staleNoId : Event :=
  ⟨1, "no id here", some "aaaaaaaa-aaaa-aaaa-aaaa-aaaaaaaaaaaa"⟩

/-- Claim C2, counterexample: `staleNoId`'s stripped message contains no
request-id occurrence, yet `filter_events` retains it — the claim as
stated fails for events that arrive with a pre-set `request_id` key. -/
theorem uncorrelatable_excluded_cex :
    extractRequestId (pyStrip staleNoId.message) = none ∧
    annotate staleNoId ∈ filter_events_core [staleMatch, staleNoId] sampleSearch := by
  decide

/-- An id-less event with no pre-attached `request_id` key. -/
def plainNoId : Event := ⟨7, " no identifier here ", none⟩

/-- Claim C2, witness for the amended theorem. -/
theorem uncorrelatable_excluded_witness :
    (filter_events [sampleStart, plainNoId] (CompiledPattern.ok sampleSearch)).2 =
      Except.ok (filter_events_core [sampleStart, plainNoId] sampleSearch) ∧
    annotate plainNoId ∉ filter_events_core [sampleStart, plainNoId] sampleSearch :=
  uncorrelatable_excluded _ _ plainNoId rfl (by decide)

/-- ARABIC-INDIC DIGIT ZERO, U+0660: a Unicode decimal digit outside
`[0-9a-f]`. -/
def arabicZero : Char := Char.ofNat 0x660

/-- The 8-4-4-4-12 shape written entirely with U+0660 digits. -/
def arabicId : String :=
  String.mk (List.replicate 8 arabicZero ++ '-' ::
    (List.replicate 4 arabicZero ++ '-' ::
      (List.replicate 4 arabicZero ++ '-' ::
        (List.replicate 4 arabicZero ++ '-' :: List.replicate 12 arabicZero))))

/-- The character class the source comment and the specification describe:
lowercase hex, `[0-9a-f]` only. -/
def isHexLowerChar (c : Char) : Bool :=
  (0x30 ≤ c.toNat && c.toNat ≤ 0x39) || (0x61 ≤ c.toNat && c.toNat ≤ 0x66)

/-- Claim C3: the pattern `([a-f]|\d){...}` is compiled without `re.ASCII`,
so `\d` admits every Unicode decimal digit — pass 1 attaches to this event
an identifier not one of whose characters lies in `[0-9a-f]`, contradicting
the comment above `REQUEST_ID_REGEX` ("any lowercase 0-9, a-f character")
and the specification. -/
theorem extract_accepts_nonascii_digits :
    (annotate ⟨0, arabicId, none⟩).request_id = some arabicId ∧
    arabicId.data.all (fun c => !(isHexLowerChar c)) = true := by
  decide

/-- Parameters as a caller builds them: no `nextToken` key. -/
def p0 : QueryParameters := ⟨"group", none, none, none, none, none, none⟩

/-- A two-page response sequence: the first page carries a continuation
token. -/
def twoPages : List Response := [⟨[], some "token1", []⟩, ⟨[], none, []⟩]

/-- Claim C4, counterexample: after a paginated retrieval the
caller-supplied parameter dictionary is no longer what the caller passed —
`fetch_events` wrote the continuation token into it. -/
theorem fetch_mutates_params : (fetch_events p0 twoPages).1 ≠ p0 := by
  decide

/-- Claim C4 (amended): the caller's parameters survive a single-page
retrieval unchanged; under pagination exactly the `nextToken` key is
written into them and every other field is left intact. -/
theorem fetch_params_only_nextToken (p : QueryParameters) (pages : List Response) :
    ((fetch_events p pages).1 = p ∨
      ∃ t, (fetch_events p pages).1 = { p with nextToken := some t }) ∧
    (∀ r : Response, r.nextToken = none → (fetch_events p [r]).1 = p) := by
  constructor
  · exact fetchLoop_params pages p []
  · intro r h
    show (fetchLoop p [r] []).1 = p
    rw [fetchLoop_cons, h]

/-- Claim C4, witness for the amended theorem. -/
theorem fetch_params_only_nextToken_witness :
    ((fetch_events p0 twoPages).1 = p0 ∨
      ∃ t, (fetch_events p0 twoPages).1 = { p0 with nextToken := some t }) ∧
    (fetch_events p0 [⟨[], none, []⟩]).1 = p0 :=
  ⟨(fetch_params_only_nextToken p0 twoPages).1,
   (fetch_params_only_nextToken p0 twoPages).2 ⟨[], none, []⟩ rfl⟩

/-- Claim C6: the filter output is a subsequence of the input list as the
call leaves it (the events, annotated in place, in their original relative
order), and in particular the retained timestamp sequence is a subsequence
of the input timestamp sequence — ties stay as received. -/
theorem filter_preserves_order (events : List Event) (search : String → Bool) :
    (filter_events_core events search).Sublist (events.map annotate) ∧
    ((filter_events_core events search).map (fun e => e.timestamp)).Sublist
      (events.map (fun e => e.timestamp)) := by
  have hsub : (filter_events_core events search).Sublist (events.map annotate) := by
    rw [filter_events_core]
    exact List.filter_sublist _
  refine ⟨hsub, ?_⟩
  have h2 := hsub.map (fun e => e.timestamp)
  have h3 : events.map ((fun e => e.timestamp) ∘ annotate) =
      events.map (fun e => e.timestamp) :=
    List.map_congr_left (fun a _ => annotate_timestamp a)
  rwa [List.map_map, h3] at h2

/-- Claim C8: a malformed content pattern makes `filter_events` fail with
the compilation error, with no partial output and the caller's event list
untouched — `re.compile` runs before any event is stripped or annotated. -/
theorem malformed_pattern_fails (events : List Event) (msg : String) :
    filter_events events (CompiledPattern.err msg) = (events, Except.error msg) :=
  rfl

/-- A well-formed page split of the worked example's three events. -/
def samplePages : List Response :=
  [⟨[sampleBoom], some "tok", []⟩,
   ⟨[sampleStart, sampleOther], none, [("stream", true)]⟩]

/-- Claim C5: pagination drops and duplicates nothing — the retrieved list
is a permutation of the concatenation of all pages, so its length is the
sum of the per-page event counts. -/
theorem fetch_complete (p : QueryParameters) (pages : List Response)
    (hwf : wellFormedPages pages = true) :
    ((fetch_events p pages).2.length =
      (pages.map (fun r => r.events.length)).sum) ∧
    ((fetch_events p pages).2.Perm (pages.flatMap (fun r => r.events))) := by
  have hperm : (fetch_events p pages).2.Perm (pages.flatMap (fun r => r.events)) := by
    rw [fetch_events_snd p pages hwf]
    exact List.mergeSort_perm _ _
  refine ⟨?_, hperm⟩
  rw [hperm.length_eq, List.length_flatMap]
  rfl

/-- Claim C5, witness: the sample page split. -/
theorem fetch_complete_witness :
    ((fetch_events p0 samplePages).2.length =
      (samplePages.map (fun r => r.events.length)).sum) ∧
    ((fetch_events p0 samplePages).2.Perm
      (samplePages.flatMap (fun r => r.events))) :=
  fetch_complete p0 samplePages (by decide)

/-- Claim C7: the retrieved list is sorted by timestamp ascending, the sort
is stable (for every timestamp, the retained subsequence of events carrying
it equals the corresponding subsequence of the accumulation order), and any
two page splits that accumulate the same events yield the same final
sequence. -/
theorem fetch_sorted_stable (p : QueryParameters) (pages : List Response)
    (hwf : wellFormedPages pages = true) :
    ((fetch_events p pages).2.Pairwise (fun a b => a.timestamp ≤ b.timestamp)) ∧
    (∀ t : Int, (fetch_events p pages).2.filter (fun e => e.timestamp == t) =
      (pages.flatMap (fun r => r.events)).filter (fun e => e.timestamp == t)) ∧
    (∀ (q : QueryParameters) (pages2 : List Response),
      wellFormedPages pages2 = true →
      pages.flatMap (fun r => r.events) = pages2.flatMap (fun r => r.events) →
      (fetch_events p pages).2 = (fetch_events q pages2).2) := by
  refine ⟨?_, ?_, ?_⟩
  · rw [fetch_events_snd p pages hwf]
    have hpw := List.sorted_mergeSort eventLe_trans eventLe_total
      (pages.flatMap (fun r => r.events))
    exact hpw.imp (fun h => by simpa [eventLe] using h)
  · intro t
    rw [fetch_events_snd p pages hwf]
    have hpw : ((pages.flatMap (fun r => r.events)).filter
        (fun e => e.timestamp == t)).Pairwise (fun a b => eventLe a b = true) := by
      apply List.pairwise_of_forall_mem_list
      intro a ha b hb
      have ha2 := (List.mem_filter.mp ha).2
      have hb2 := (List.mem_filter.mp hb).2
      simp only [beq_iff_eq] at ha2 hb2
      simp [eventLe, ha2, hb2]
    have hsubl : ((pages.flatMap (fun r => r.events)).filter
        (fun e => e.timestamp == t)).Sublist
        ((pages.flatMap (fun r => r.events)).mergeSort eventLe) :=
      List.sublist_mergeSort eventLe_trans eventLe_total hpw (List.filter_sublist _)
    have hsub2 : ((pages.flatMap (fun r => r.events)).filter
        (fun e => e.timestamp == t)).Sublist
        (((pages.flatMap (fun r => r.events)).mergeSort eventLe).filter
          (fun e => e.timestamp == t)) := by
      have h4 := hsubl.filter (fun e => e.timestamp == t)
      rw [List.filter_filter] at h4
      simpa only [Bool.and_self] using h4
    have hperm : (((pages.flatMap (fun r => r.events)).mergeSort eventLe).filter
        (fun e => e.timestamp == t)).Perm
        ((pages.flatMap (fun r => r.events)).filter (fun e => e.timestamp == t)) :=
      (List.mergeSort_perm _ eventLe).filter _
    exact (hsub2.eq_of_length hperm.length_eq.symm).symm
  · intro q pages2 hwf2 hflat
    rw [fetch_events_snd p pages hwf, fetch_events_snd q pages2 hwf2, hflat]

/-- Claim C7, witness: the sample split against the single-page split of
the same events. -/
theorem fetch_sorted_stable_witness :
    ((fetch_events p0 samplePages).2.Pairwise
      (fun a b => a.timestamp ≤ b.timestamp)) ∧
    ((fetch_events p0 samplePages).2.filter (fun e => e.timestamp == (1 : Int)) =
      (samplePages.flatMap (fun r => r.events)).filter
        (fun e => e.timestamp == (1 : Int))) ∧
    ((fetch_events p0 samplePages).2 =
      (fetch_events p0 [⟨[sampleBoom, sampleStart, sampleOther], none, []⟩]).2) :=
  ⟨(fetch_sorted_stable p0 samplePages (by decide)).1,
   (fetch_sorted_stable p0 samplePages (by decide)).2.1 1,
   (fetch_sorted_stable p0 samplePages (by decide)).2.2 p0
     [⟨[sampleBoom, sampleStart, sampleOther], none, []⟩] (by decide) (by decide)⟩

/-- Claim C9: the single strip is canonical — stripping is idempotent,
every output event carries exactly the stripped form of its input message
(timestamp untouched), the whole filter is insensitive to pre-stripping its
input, and retrieval passes messages through without any modification. -/
theorem trim_canonical :
    (∀ s : String, pyStrip (pyStrip s) = pyStrip s) ∧
    (∀ (events : List Event) (search : String → Bool),
      ∀ x ∈ filter_events_core events search,
        ∃ e ∈ events, x.timestamp = e.timestamp ∧ x.message = pyStrip e.message) ∧
    (∀ (events : List Event) (search : String → Bool),
      filter_events_core
        (events.map (fun e => { e with message := pyStrip e.message })) search =
        filter_events_core events search) ∧
    (∀ (p : QueryParameters) (pages : List Response),
      wellFormedPages pages = true →
      ∀ x ∈ (fetch_events p pages).2, x ∈ pages.flatMap (fun r => r.events)) := by
  have hannot : ∀ e : Event,
      annotate { e with message := pyStrip e.message } = annotate e := by
    intro e
    cases h : extractRequestId (pyStrip e.message) <;>
      simp [annotate, pyStrip_pyStrip, h]
  refine ⟨pyStrip_pyStrip, ?_, ?_, ?_⟩
  · intro events search x hx
    obtain ⟨hmap, -⟩ := (mem_filter_events_core events search x).mp hx
    obtain ⟨e, he, hxe⟩ := List.mem_map.mp hmap
    exact ⟨e, he, hxe ▸ ⟨annotate_timestamp e, annotate_message e⟩⟩
  · intro events search
    have hmap : (events.map (fun e => { e with message := pyStrip e.message })).map
        annotate = events.map annotate := by
      rw [List.map_map]
      exact List.map_congr_left (fun a _ => hannot a)
    have hmids : matching_request_ids
        (events.map (fun e => { e with message := pyStrip e.message })) search =
        matching_request_ids events search := by
      rw [matching_request_ids, matching_request_ids, List.filterMap_map]
      apply List.filterMap_congr
      intro a _
      simp [pyStrip_pyStrip]
    rw [filter_events_core, filter_events_core, hmap, hmids]
  · intro p pages hwf x hx
    rw [fetch_events_snd p pages hwf] at hx
    exact ((List.mergeSort_perm _ eventLe).mem_iff).mp hx

/-- Claim C9, witness: the conjuncts instantiated on the worked example. -/
theorem trim_canonical_witness :
    (pyStrip (pyStrip "  padded  ") = pyStrip "  padded  ") ∧
    (∃ e ∈ [sampleStart, sampleBoom, sampleOther],
      (annotate sampleBoom).timestamp = e.timestamp ∧
      (annotate sampleBoom).message = pyStrip e.message) ∧
    (filter_events_core
      ([sampleStart, sampleBoom, sampleOther].map
        (fun e => { e with message := pyStrip e.message })) sampleSearch =
      filter_events_core [sampleStart, sampleBoom, sampleOther] sampleSearch) ∧
    (sampleStart ∈ samplePages.flatMap (fun r => r.events)) :=
  ⟨trim_canonical.1 "  padded  ",
   trim_canonical.2.1 [sampleStart, sampleBoom, sampleOther] sampleSearch
     (annotate sampleBoom) (by decide),
   trim_canonical.2.2.1 [sampleStart, sampleBoom, sampleOther] sampleSearch,
   trim_canonical.2.2.2 p0 samplePages (by decide) sampleStart (by
     rw [fetch_events_snd p0 samplePages (by decide)]
     exact ((List.mergeSort_perm _ eventLe).mem_iff).mpr (by decide))⟩

/-- Claim C10: the correlation filter is idempotent — running
`filter_events` on its own output with the same pattern returns the output
unchanged, since every retained identifier re-qualifies through a retained
directly-matching event. -/
theorem filter_idempotent (events : List Event) (search : String → Bool) :
    filter_events_core (filter_events_core events search) search =
      filter_events_core events search := by
  have hmem : ∀ x ∈ filter_events_core events search,
      (∃ e, e ∈ events ∧ x = annotate e) ∧
        keepEvent (matching_request_ids events search) x = true := by
    intro x hx
    obtain ⟨hmap, hkeep⟩ := (mem_filter_events_core events search x).mp hx
    obtain ⟨e, he, hxe⟩ := List.mem_map.mp hmap
    exact ⟨⟨e, he, hxe.symm⟩, hkeep⟩
  have hfix : (filter_events_core events search).map annotate =
      filter_events_core events search := by
    have hid : ∀ x ∈ filter_events_core events search, annotate x = x := by
      intro x hx
      obtain ⟨⟨e, he, rfl⟩, -⟩ := hmem x hx
      exact annotate_annotate e
    calc (filter_events_core events search).map annotate
        = (filter_events_core events search).map id := List.map_congr_left hid
      _ = filter_events_core events search := List.map_id _
  have hkeep2 : ∀ x ∈ filter_events_core events search,
      keepEvent (matching_request_ids (filter_events_core events search) search)
        x = true := by
    intro x hx
    obtain ⟨⟨e, he, rfl⟩, hkeep⟩ := hmem x hx
    rcases hrq : (annotate e).request_id with _ | rid
    · rw [keepEvent, hrq] at hkeep
      simp at hkeep
    · rw [keepEvent, hrq] at hkeep
      have hrid : rid ∈ matching_request_ids events search := by
        simpa [List.contains, List.elem_iff] using hkeep
      obtain ⟨e2, he2, hx2, hs2⟩ := (mem_matching_iff events search rid).mp hrid
      have he2out : annotate e2 ∈ filter_events_core events search := by
        rw [mem_filter_events_core, keepEvent_annotate _ e2 rid hx2]
        refine ⟨List.mem_map_of_mem annotate he2, ?_⟩
        simpa [List.contains, List.elem_iff] using hrid
      have hrid2 : rid ∈
          matching_request_ids (filter_events_core events search) search := by
        rw [mem_matching_iff]
        refine ⟨annotate e2, he2out, ?_, ?_⟩
        · rw [annotate_message, pyStrip_pyStrip]
          exact hx2
        · rw [annotate_message, pyStrip_pyStrip]
          exact hs2
      rw [keepEvent, hrq]
      simpa [List.contains, List.elem_iff] using hrid2
  calc filter_events_core (filter_events_core events search) search
      = ((filter_events_core events search).map annotate).filter
          (keepEvent
            (matching_request_ids (filter_events_core events search) search)) :=
        rfl
    _ = (filter_events_core events search).filter
          (keepEvent
            (matching_request_ids (filter_events_core events search) search)) := by
        rw [hfix]
    _ = filter_events_core events search := List.filter_eq_self.mpr hkeep2

end Cw
